import Mathlib

/-!
Verification of the terminal status/output module of the `hatch` repository
(`src/hatch/cli/terminal.py`).

The module is embedded shallowly:

* `Text` models `rich.text.Text` (a plain string plus a style).
* `Style` models a parsed `rich.style.Style` (its definition string plus an
  optional link); `StyleV` models a value that is either a raw descriptor
  string or a parsed style, matching the `Style | str` attribute values of
  the Python class.
* `ConsoleState` models the shared `rich.console.Console`: its `stderr`
  stream-selection flag, the log of printed entries, and a counter used to
  hand out fresh spinner handles for `console.status`.
* `BSConfig`/`BSState` model `BorrowedStatus`: the construction-time
  configuration and the mutable state (`__status`, `__messages`, and the
  number of attach/detach hook invocations).  The head of `messages` models
  the tail of the Python list (push/pop happen at the head here).
* `Terminal` models the `Terminal` class; its Python attribute dictionary is
  modelled by the association list `attrs`, so the dynamic
  `getattr`/`setattr` on computed attribute names in `initialize_styles` is
  represented faithfully (including name collisions).
* Fallible operations return `Except`/`Option PyErr`; a renderer failure is
  modelled by a `raises` flag on the print paths.
-/

set_option autoImplicit false

namespace HatchTerminal

/-- Models `rich.text.Text`: a plain string with an attached style. -/
structure Text where
  plain : String
  style : String
deriving DecidableEq, Repr

/-- Models a parsed `rich.style.Style`: its definition plus an optional link. -/
structure Style where
  desc : String
  link : Option String := none
deriving DecidableEq, Repr

/-- A Python attribute value that is either a raw descriptor string or a
parsed style (the `Style | str` union used by `Terminal`). -/
inductive StyleV where
  | raw : String → StyleV
  | parsed : Style → StyleV
deriving DecidableEq, Repr

/-- Python truthiness of a `Style | str` value: a string is truthy when
non-empty; a parsed style object is truthy. -/
def StyleV.truthy : StyleV → Bool
  | .raw s => s ≠ ""
  | .parsed _ => true

/-- The string form of a `Style | str` value, as used when it is interpolated
into an error message or re-parsed as a default. -/
def StyleV.descr : StyleV → String
  | .raw s => s
  | .parsed st => st.desc

/-- Models `style.update_link(uri)`: defined on a parsed style; attribute
access on a raw string raises `AttributeError`. -/
def StyleV.updateLink : StyleV → String → Except Unit StyleV
  | .parsed st, uri => .ok (.parsed { st with link := some uri })
  | .raw _, _ => .error ()

/-- A renderable passed to `console.print`: either a `rich` `Text` object
(status module) or a plain string (the `Terminal` display family). -/
inductive Renderable where
  | txt : Text → Renderable
  | str : String → Renderable
deriving DecidableEq, Repr

/-- Python exceptions that the embedded operations can raise. -/
inductive PyErr where
  | valueError : String → PyErr
  | attributeError : PyErr
  | renderError : PyErr
deriving DecidableEq, Repr

/-- One entry of the console's printed output: what was printed, the style
keyword argument, and the value of the console's `stderr` flag at the moment
of printing (i.e. which stream received the line). -/
structure OutEntry where
  item : Renderable
  style : Option StyleV
  stderr : Bool
deriving DecidableEq, Repr

/-- The state of the shared `rich` console: the `stderr` stream-selection
flag, the printed output, and a counter for allocating spinner handles. -/
structure ConsoleState where
  stderr : Bool := false
  output : List OutEntry := []
  nextId : Nat := 0
deriving DecidableEq, Repr

/-- Models `console.print`: appends an entry recording the current stream
selection, unless the renderer raises (`raises = true`), in which case
nothing is printed and the state is unchanged. -/
def ConsoleState.print (c : ConsoleState) (item : Renderable) (style : Option StyleV)
    (raises : Bool) : Option PyErr × ConsoleState :=
  if raises then (some .renderError, c)
  else (none, { c with output := c.output ++ [⟨item, style, c.stderr⟩] })

/-- A spinner handle (`rich.status.Status`): its identity, the message it
renders, and whether its live display is started (`_live.is_started`). -/
structure StatusHandle where
  id : Nat
  message : Text
  isStarted : Bool
deriving DecidableEq, Repr

/-- Models `console.status(message, ...)`: allocates a fresh, not yet
started handle rendering `message`. -/
def ConsoleState.status (c : ConsoleState) (message : Text) : StatusHandle × ConsoleState :=
  ({ id := c.nextId, message := message, isStarted := false }, { c with nextId := c.nextId + 1 })

/-- Construction-time configuration of `BorrowedStatus`. -/
structure BSConfig where
  tty : Bool
  verbosity : Int
  spinner_style : String
  waiting_style : String
  success_style : String
deriving DecidableEq, Repr

/-- Mutable state of a `BorrowedStatus`: the console, the possibly active
current status handle (`__status`), the message stack (`__messages`, head =
top), and counters of attach/detach hook invocations. -/
structure BSState where
  console : ConsoleState := {}
  status : Option StatusHandle := none
  messages : List (Text × String) := []
  attachCalls : Nat := 0
  detachCalls : Nat := 0
deriving DecidableEq, Repr

/-- A freshly constructed `BorrowedStatus`. -/
def bsInit : BSState := {}

/-- Models `BorrowedStatus.__active`: a handle exists and is started. -/
def BSState.active (s : BSState) : Bool :=
  match s.status with
  | some h => h.isStarted
  | none => false

/-- Models `BorrowedStatus.__output` with an explicit renderer-failure flag:
set `console.stderr`, print, and restore `console.stderr` to `False` in a
`finally` block (so the restore happens on the failure path too). -/
def BSState.outputTextEx (s : BSState) (t : Text) (raises : Bool) : Option PyErr × BSState :=
  let c := { s.console with stderr := true }
  let (e, c) := c.print (.txt t) none raises
  (e, { s with console := { c with stderr := false } })

/-- `BorrowedStatus.__output` on the normal path (renderer succeeds). -/
def BSState.outputT (s : BSState) (t : Text) : BSState :=
  (s.outputTextEx t false).2

/-- Models `f'Finished {final_text[:1].lower()}{final_text[1:]}'`: the first
character lowercased, the rest unchanged. -/
def lowerFirst (s : String) : String :=
  match s.data with
  | [] => ""
  | c :: cs => String.mk (c.toLower :: cs)

/-- The synthesized completion line for a waiting message. -/
def finishedText (m : String) : String := "Finished " ++ lowerFirst m

/-- Models `BorrowedStatus.stop`: record liveness, stop any handle, then
read the top message (`self.__messages[-1]`, an `IndexError` when the stack
is empty) and print the completion line when verbosity and liveness allow. -/
def BSConfig.stop (cfg : BSConfig) (s : BSState) : Except String BSState :=
  let active := s.active
  let s := match s.status with
    | some h => { s with status := some { h with isStarted := false } }
    | none => s
  match s.messages with
  | [] => .error "IndexError: list index out of range"
  | (old_message, final_text) :: _ =>
    if cfg.verbosity > 0 && active then
      let ft := if final_text = "" then finishedText old_message.plain else final_text
      .ok (s.outputT ⟨ft, cfg.success_style⟩)
    else
      .ok s

/-- Models `BorrowedStatus.__call__`: push a `(Text(message, waiting_style),
final_text)` entry onto the message stack. -/
def BSConfig.call (cfg : BSConfig) (s : BSState) (message : String)
    (final_text : String := "") : BSState :=
  { s with messages := (⟨message, cfg.waiting_style⟩, final_text) :: s.messages }

/-- Models `BorrowedStatus.__enter__`: no-op on an empty stack; in non-TTY
mode print the waiting message once; in TTY mode run the attach hook on
first use or stop the shadowed handle, then start a fresh handle for the
top message. -/
def BSConfig.enter (cfg : BSConfig) (s : BSState) : BSState :=
  match s.messages with
  | [] => s
  | (message, _) :: _ =>
    if !cfg.tty then s.outputT message
    else
      let s := match s.status with
        | none => { s with attachCalls := s.attachCalls + 1 }
        | some h => { s with status := some { h with isStarted := false } }
      let (h, c) := s.console.status message
      { s with console := c, status := some { h with isStarted := true } }

/-- Models `BorrowedStatus.__exit__`: pop the top entry (`IndexError` when
the stack is empty), print the completion line when verbosity and liveness
allow, then in TTY mode stop the current handle and either run the detach
hook (stack now empty) or start a fresh handle for the uncovered entry. -/
def BSConfig.exit (cfg : BSConfig) (s : BSState) : Except String BSState :=
  match s.messages with
  | [] => .error "IndexError: pop from empty list"
  | (old_message, final_text) :: rest =>
    let s := { s with messages := rest }
    let s := if cfg.verbosity > 0 && s.active then
        let ft := if final_text = "" then finishedText old_message.plain else final_text
        s.outputT ⟨ft, cfg.success_style⟩
      else s
    if !cfg.tty then .ok s
    else
      match s.status with
      | none => .error "AttributeError: NoneType object has no attribute stop"
      | some h =>
        let s := { s with status := some { h with isStarted := false } }
        match s.messages with
        | [] => .ok { s with status := none, detachCalls := s.detachCalls + 1 }
        | (message, _) :: _ =>
          let (h2, c) := s.console.status message
          .ok { s with console := c, status := some { h2 with isStarted := true } }

/-- The public operations of `BorrowedStatus`, used to range over reachable
states. -/
inductive BSOp where
  | call (message final_text : String)
  | enter
  | exit
  | stop
deriving DecidableEq, Repr

/-- Run one `BorrowedStatus` operation; when an operation raises, the state
at the raise point is discarded by the unwinding caller, so the pre-state is
kept (the raising paths never change the console's stream flag or the
status handle in a way visible to these claims). -/
def BSConfig.exec1 (cfg : BSConfig) (s : BSState) : BSOp → BSState
  | .call m ft => cfg.call s m ft
  | .enter => cfg.enter s
  | .exit => match cfg.exit s with
    | .ok s' => s'
    | .error _ => s
  | .stop => match cfg.stop s with
    | .ok s' => s'
    | .error _ => s

/-- Run a sequence of `BorrowedStatus` operations from a state. -/
def BSConfig.execOps (cfg : BSConfig) (s : BSState) : List BSOp → BSState
  | [] => s
  | op :: ops => cfg.execOps (cfg.exec1 s op) ops

/-- The attribute name `f'_style_level_{option}'`. -/
def lvlAttr (k : String) : String := "_style_level_" ++ k

/-- The attribute name `f'_style_{option}'`. -/
def pfxAttr (k : String) : String := "_style_" ++ k

/-- Models `getattr(self, name, None)` over the attribute list. -/
def getAttr : List (String × StyleV) → String → Option StyleV
  | [], _ => none
  | (k, v) :: rest, name => if k = name then some v else getAttr rest name

/-- Models `setattr(self, name, v)`: update an existing attribute or create
a new one. -/
def setAttr : List (String × StyleV) → String → StyleV → List (String × StyleV)
  | [], name, v => [(name, v)]
  | (k, w) :: rest, name, v =>
    if k = name then (k, v) :: rest else (k, w) :: setAttr rest name v

/-- The style attributes set by `Terminal.__init__`. -/
def initAttrs : List (String × StyleV) :=
  [(lvlAttr "success", .raw "bold cyan"),
   (lvlAttr "error", .raw "bold red"),
   (lvlAttr "warning", .raw "bold yellow"),
   (lvlAttr "waiting", .raw "bold magenta"),
   (lvlAttr "info", .raw "bold"),
   (lvlAttr "debug", .raw "bold"),
   (pfxAttr "spinner", .raw "simpleDotsScrolling")]

/-- The `Terminal` class: verbosity, the console, and its (dynamic) style
attributes. -/
structure Terminal where
  verbosity : Int
  console : ConsoleState := {}
  attrs : List (String × StyleV) := initAttrs
deriving DecidableEq, Repr

/-- A freshly constructed `Terminal` with the given verbosity. -/
def Terminal.mkT (verbosity : Int) : Terminal := { verbosity := verbosity }

/-- Plain attribute access `self.<name>` for a style attribute (always
present on the states the claims exercise). -/
def Terminal.styleOf (t : Terminal) (name : String) : StyleV :=
  (getAttr t.attrs name).getD (.raw "")

/-- The error string queued by `initialize_styles` for a failed parse. -/
def mkStyleErr (option : String) (default_level : StyleV) (e : String) : String :=
  "Invalid style definition for `" ++ option ++ "`, defaulting to `"
    ++ default_level.descr ++ "`: " ++ e

/-- Models `Terminal.initialize_styles`, parameterized by the external style
parser (`rich.style.Style.parse`): walk the overrides in order; for a key
with a truthy `_style_level_{option}` default, parse the descriptor, on
failure queue an error string and re-parse the default (an uncaught
`StyleSyntaxError` — modelled as `.error` — when that re-parse fails too);
otherwise store the raw descriptor under `_style_{option}`. -/
def Terminal.initStyles (parse : String → Except String Style) :
    Terminal → List (String × String) → List String → Except String (List String × Terminal)
  | t, [], errors => .ok (errors, t)
  | t, (option, style) :: rest, errors =>
    let attrName := lvlAttr option
    match getAttr t.attrs attrName with
    | some default_level =>
      if default_level.truthy then
        match parse style with
        | .ok st =>
          Terminal.initStyles parse { t with attrs := setAttr t.attrs attrName (.parsed st) }
            rest errors
        | .error e =>
          let errors := errors ++ [mkStyleErr option default_level e]
          match parse default_level.descr with
          | .ok st =>
            Terminal.initStyles parse { t with attrs := setAttr t.attrs attrName (.parsed st) }
              rest errors
          | .error e2 => .error e2
      else
        Terminal.initStyles parse { t with attrs := setAttr t.attrs (pfxAttr option) (.raw style) }
          rest errors
    | none =>
      Terminal.initStyles parse { t with attrs := setAttr t.attrs (pfxAttr option) (.raw style) }
        rest errors

/-- Models `textwrap.indent(text, pre)`: prepend `pre` to every line that
contains non-whitespace. -/
def indentText (text pre : String) : String :=
  String.intercalate "\n"
    ((text.splitOn "\n").map fun line => if line.trim = "" then line else pre ++ line)

/-- Models the platform collaborator `format_file_uri`. -/
def formatFileUri (p : String) : String := "file://" ++ p

/-- Models `Terminal.output`: apply indentation, resolve a link into the
style (an `AttributeError` when the style is absent or a raw string), then
print on the selected stream; when the secondary stream is selected the
console's `stderr` flag is set for the call and reset to `False` in a
`finally` block. -/
def Terminal.output (t : Terminal) (text : String) (style : Option StyleV := none)
    (stderr : Bool := false) (indent : String := "") (link : String := "")
    (raises : Bool := false) : Option PyErr × Terminal :=
  let text := if indent ≠ "" then indentText text indent else text
  let styleR : Except PyErr (Option StyleV) :=
    if link ≠ "" then
      match style with
      | none => .error .attributeError
      | some sv =>
        match sv.updateLink (formatFileUri link) with
        | .ok sv' => .ok (some sv')
        | .error _ => .error .attributeError
    else .ok style
  match styleR with
  | .error e => (some e, t)
  | .ok style =>
    if !stderr then
      let (e, c) := t.console.print (.str text) style raises
      (e, { t with console := c })
    else
      let c := { t.console with stderr := true }
      let (e, c) := c.print (.str text) style raises
      (e, { t with console := { c with stderr := false } })

/-- Models `Terminal.display`: print with the info style on the current
stream (the stream flag is not touched). -/
def Terminal.display (t : Terminal) (text : String := "") (raises : Bool := false) :
    Option PyErr × Terminal :=
  let (e, c) := t.console.print (.str text) (some (t.styleOf (lvlAttr "info"))) raises
  (e, { t with console := c })

/-- Models `Terminal.display_critical`: print with the error style on the
secondary stream, resetting the flag in a `finally` block. -/
def Terminal.displayCritical (t : Terminal) (text : String := "") (raises : Bool := false) :
    Option PyErr × Terminal :=
  let c := { t.console with stderr := true }
  let (e, c) := c.print (.str text) (some (t.styleOf (lvlAttr "error"))) raises
  (e, { t with console := { c with stderr := false } })

/-- Models `Terminal.display_error` (verbosity floor `-2`). -/
def Terminal.displayError (t : Terminal) (text : String := "") (stderr : Bool := true)
    (indent : String := "") (link : String := "") (raises : Bool := false) :
    Option PyErr × Terminal :=
  if t.verbosity < -2 then (none, t)
  else t.output text (some (t.styleOf (lvlAttr "error"))) stderr indent link raises

/-- Models `Terminal.display_warning` (verbosity floor `-1`). -/
def Terminal.displayWarning (t : Terminal) (text : String := "") (stderr : Bool := true)
    (indent : String := "") (link : String := "") (raises : Bool := false) :
    Option PyErr × Terminal :=
  if t.verbosity < -1 then (none, t)
  else t.output text (some (t.styleOf (lvlAttr "warning"))) stderr indent link raises

/-- Models `Terminal.display_info` (verbosity floor `0`). -/
def Terminal.displayInfo (t : Terminal) (text : String := "") (stderr : Bool := true)
    (indent : String := "") (link : String := "") (raises : Bool := false) :
    Option PyErr × Terminal :=
  if t.verbosity < 0 then (none, t)
  else t.output text (some (t.styleOf (lvlAttr "info"))) stderr indent link raises

/-- Models `Terminal.display_success` (verbosity floor `0`). -/
def Terminal.displaySuccess (t : Terminal) (text : String := "") (stderr : Bool := true)
    (indent : String := "") (link : String := "") (raises : Bool := false) :
    Option PyErr × Terminal :=
  if t.verbosity < 0 then (none, t)
  else t.output text (some (t.styleOf (lvlAttr "success"))) stderr indent link raises

/-- Models `Terminal.display_waiting` (verbosity floor `0`). -/
def Terminal.displayWaiting (t : Terminal) (text : String := "") (stderr : Bool := true)
    (indent : String := "") (link : String := "") (raises : Bool := false) :
    Option PyErr × Terminal :=
  if t.verbosity < 0 then (none, t)
  else t.output text (some (t.styleOf (lvlAttr "waiting"))) stderr indent link raises

/-- The `ValueError` message for an out-of-range debug level. -/
def debugRangeMsg : String :=
  "Debug output can only have verbosity levels between 1 and 3 (inclusive)"

/-- Models `Terminal.display_debug`: level must lie in `1..3` (`ValueError`
otherwise, before any verbosity gating), then gate on `verbosity < level`. -/
def Terminal.displayDebug (t : Terminal) (text : String := "") (level : Int := 1)
    (stderr : Bool := true) (indent : String := "") (link : String := "")
    (raises : Bool := false) : Option PyErr × Terminal :=
  if ¬(1 ≤ level ∧ level ≤ 3) then (some (.valueError debugRangeMsg), t)
  else if t.verbosity < level then (none, t)
  else t.output text (some (t.styleOf (lvlAttr "debug"))) stderr indent link raises

/-- Models `Terminal.display_raw`: print without styling on the current
stream. -/
def Terminal.displayRaw (t : Terminal) (text : String := "") (raises : Bool := false) :
    Option PyErr × Terminal :=
  let (e, c) := t.console.print (.str text) none raises
  (e, { t with console := c })

/-- The console-touching operations of `Terminal`, used to range over the
reachable states of the output sink. -/
inductive TOp where
  | display (text : String) (raises : Bool)
  | displayCritical (text : String) (raises : Bool)
  | displayError (text : String) (stderr : Bool) (indent link : String) (raises : Bool)
  | displayWarning (text : String) (stderr : Bool) (indent link : String) (raises : Bool)
  | displayInfo (text : String) (stderr : Bool) (indent link : String) (raises : Bool)
  | displaySuccess (text : String) (stderr : Bool) (indent link : String) (raises : Bool)
  | displayWaiting (text : String) (stderr : Bool) (indent link : String) (raises : Bool)
  | displayDebug (text : String) (level : Int) (stderr : Bool) (indent link : String)
      (raises : Bool)
  | displayRaw (text : String) (raises : Bool)
  | output (text : String) (style : Option StyleV) (stderr : Bool) (indent link : String)
      (raises : Bool)
deriving DecidableEq, Repr

/-- Run one `Terminal` operation (the raised exception, if any, propagates
to the caller; the post-state is what the console object holds then). -/
def Terminal.exec1 (t : Terminal) : TOp → Terminal
  | .display text raises => (t.display text raises).2
  | .displayCritical text raises => (t.displayCritical text raises).2
  | .displayError text stderr indent link raises =>
      (t.displayError text stderr indent link raises).2
  | .displayWarning text stderr indent link raises =>
      (t.displayWarning text stderr indent link raises).2
  | .displayInfo text stderr indent link raises =>
      (t.displayInfo text stderr indent link raises).2
  | .displaySuccess text stderr indent link raises =>
      (t.displaySuccess text stderr indent link raises).2
  | .displayWaiting text stderr indent link raises =>
      (t.displayWaiting text stderr indent link raises).2
  | .displayDebug text level stderr indent link raises =>
      (t.displayDebug text level stderr indent link raises).2
  | .displayRaw text raises => (t.displayRaw text raises).2
  | .output text style stderr indent link raises =>
      (t.output text style stderr indent link raises).2

/-- Run a sequence of `Terminal` operations. -/
def Terminal.execOps (t : Terminal) : List TOp → Terminal
  | [] => t
  | op :: ops => (t.exec1 op).execOps ops


/-- The level names for which `Terminal.__init__` sets a `_style_level_*`
default. -/
def levelNames : List String := ["success", "error", "warning", "waiting", "info", "debug"]

/-- The default descriptor set by `Terminal.__init__` for each level name. -/
def defaultOf : String → String
  | "success" => "bold cyan"
  | "error" => "bold red"
  | "warning" => "bold yellow"
  | "waiting" => "bold magenta"
  | "info" => "bold"
  | "debug" => "bold"
  | _ => ""

/-- A sample instantiation of the external style parser, used for concrete
checks: it accepts exactly the shipped default descriptors. -/
def sampleParse (s : String) : Except String Style :=
  if s ∈ ["bold cyan", "bold red", "bold yellow", "bold magenta", "bold"] then .ok ⟨s, none⟩
  else .error ("unparsable: " ++ s)

/-- The completion-line step of `__exit__` after the pop (lines 104-109). -/
def exitPrint (cfg : BSConfig) (old_message : Text) (final_text : String) (s : BSState) :
    BSState :=
  if cfg.verbosity > 0 && s.active then
    let ft := if final_text = "" then finishedText old_message.plain else final_text
    s.outputT ⟨ft, cfg.success_style⟩
  else s

/-- The TTY bookkeeping step of `__exit__` after the optional print
(lines 111-121). -/
def exitTty (cfg : BSConfig) (s : BSState) : Except String BSState :=
  if !cfg.tty then .ok s
  else
    match s.status with
    | none => .error "AttributeError: NoneType object has no attribute stop"
    | some h =>
      let s := { s with status := some { h with isStarted := false } }
      match s.messages with
      | [] => .ok { s with status := none, detachCalls := s.detachCalls + 1 }
      | (message, _) :: _ =>
        let (h2, c) := s.console.status message
        .ok { s with console := c, status := some { h2 with isStarted := true } }

/-- `self.__status.stop()` guarded by the `None` check (stop, lines 68-69). -/
def stopHandle (s : BSState) : BSState :=
  match s.status with
  | some h => { s with status := some { h with isStarted := false } }
  | none => s

/-- A sample TTY configuration for concrete checks. -/
def cfgSample : BSConfig := ⟨true, 1, "simpleDotsScrolling", "bold magenta", "bold cyan"⟩

/-- A sample non-TTY configuration for concrete checks. -/
def cfgSampleNoTty : BSConfig := ⟨false, 2, "simpleDotsScrolling", "bold magenta", "bold cyan"⟩

/-- The attribute written for a key of the overrides mapping whose level
lookup finds the shipped defaults (the six level names) versus any other
key. -/
def wAttr (k : String) : String := if k ∈ levelNames then lvlAttr k else pfxAttr k

/-- A sample state with one acquired entry and a started live handle. -/
def stSample : BSState :=
  ⟨{ nextId := 1 }, some ⟨0, ⟨"Resolving dependencies", "bold magenta"⟩, true⟩,
    [(⟨"Resolving dependencies", "bold magenta"⟩, "")], 1, 0⟩

/-! ### Helper lemmas -/

theorem outputTextEx_stderr (s : BSState) (t : Text) (raises : Bool) :
    (s.outputTextEx t raises).2.console.stderr = false := by
  cases raises <;> rfl

theorem outputT_console (s : BSState) (t : Text) :
    (s.outputT t).console =
      { s.console with
        stderr := false
        output := s.console.output ++ [⟨.txt t, none, true⟩] } := rfl

theorem outputT_status (s : BSState) (t : Text) : (s.outputT t).status = s.status := rfl

theorem outputT_messages (s : BSState) (t : Text) : (s.outputT t).messages = s.messages := rfl

theorem outputT_stderr (s : BSState) (t : Text) : (s.outputT t).console.stderr = false := rfl

theorem outputT_output (s : BSState) (t : Text) :
    (s.outputT t).console.output = s.console.output ++ [⟨.txt t, none, true⟩] := rfl

/-- `BSConfig.exit` raises on an empty stack. -/
theorem exit_eq_nil (cfg : BSConfig) (s : BSState) (hm : s.messages = []) :
    cfg.exit s = .error "IndexError: pop from empty list" := by
  obtain ⟨c, st, msgs, a, d⟩ := s
  simp only at hm
  subst hm
  rfl

/-- `BSConfig.exit` on a non-empty stack decomposes into pop, completion
print, TTY bookkeeping. -/
theorem exit_eq_cons (cfg : BSConfig) (s : BSState) (m : Text) (ftxt : String)
    (rest : List (Text × String)) (hm : s.messages = (m, ftxt) :: rest) :
    cfg.exit s = exitTty cfg (exitPrint cfg m ftxt { s with messages := rest }) := by
  obtain ⟨c, st, msgs, a, d⟩ := s
  simp only at hm
  subst hm
  rfl

/-- `BSConfig.stop` raises on an empty stack (even though it first stops
any live handle). -/
theorem stop_eq_nil (cfg : BSConfig) (s : BSState) (hm : s.messages = []) :
    cfg.stop s = .error "IndexError: list index out of range" := by
  obtain ⟨c, st, msgs, a, d⟩ := s
  simp only at hm
  subst hm
  cases st <;> rfl

/-- `BSConfig.stop` on a non-empty stack decomposes into handle stop, top
read, optional completion print. -/
theorem stop_eq_cons (cfg : BSConfig) (s : BSState) (m : Text) (ftxt : String)
    (rest : List (Text × String)) (hm : s.messages = (m, ftxt) :: rest) :
    cfg.stop s =
      if cfg.verbosity > 0 && s.active then
        .ok ((stopHandle s).outputT
          ⟨if ftxt = "" then finishedText m.plain else ftxt, cfg.success_style⟩)
      else .ok (stopHandle s) := by
  obtain ⟨c, st, msgs, a, d⟩ := s
  simp only at hm
  subst hm
  cases st <;> rfl

theorem stopHandle_console (s : BSState) : (stopHandle s).console = s.console := by
  unfold stopHandle; cases s.status <;> rfl

theorem stopHandle_messages (s : BSState) : (stopHandle s).messages = s.messages := by
  unfold stopHandle; cases s.status <;> rfl

theorem exitPrint_status (cfg : BSConfig) (m : Text) (ft : String) (s : BSState) :
    (exitPrint cfg m ft s).status = s.status := by
  unfold exitPrint; split
  · exact outputT_status _ _
  · rfl

theorem exitPrint_messages (cfg : BSConfig) (m : Text) (ft : String) (s : BSState) :
    (exitPrint cfg m ft s).messages = s.messages := by
  unfold exitPrint; split
  · exact outputT_messages _ _
  · rfl

theorem exitPrint_detach (cfg : BSConfig) (m : Text) (ft : String) (s : BSState) :
    (exitPrint cfg m ft s).detachCalls = s.detachCalls := by
  unfold exitPrint; split <;> rfl

theorem exitPrint_nextId (cfg : BSConfig) (m : Text) (ft : String) (s : BSState) :
    (exitPrint cfg m ft s).console.nextId = s.console.nextId := by
  unfold exitPrint; split <;> rfl

theorem exitPrint_stderr (cfg : BSConfig) (m : Text) (ft : String) (s : BSState)
    (hf : s.console.stderr = false) : (exitPrint cfg m ft s).console.stderr = false := by
  unfold exitPrint; split
  · exact outputT_stderr _ _
  · exact hf

theorem exitTty_stderr (cfg : BSConfig) (s s' : BSState) (hx : exitTty cfg s = .ok s') :
    s'.console.stderr = s.console.stderr := by
  obtain ⟨c, st, msgs, a, d⟩ := s
  unfold exitTty at hx
  by_cases htty : cfg.tty
  · simp only [htty, Bool.not_true] at hx
    cases st with
    | none => cases hx
    | some h =>
      cases msgs with
      | nil => cases hx; rfl
      | cons e rest => obtain ⟨m, ft⟩ := e; cases hx; rfl
  · simp only [Bool.not_eq_true] at htty
    simp only [htty, Bool.not_false] at hx
    cases hx; rfl

theorem exit_ok_stderr (cfg : BSConfig) (s s' : BSState) (hf : s.console.stderr = false)
    (hx : cfg.exit s = .ok s') : s'.console.stderr = false := by
  cases hm : s.messages with
  | nil => rw [exit_eq_nil cfg s hm] at hx; cases hx
  | cons e rest =>
    obtain ⟨m, ft⟩ := e
    rw [exit_eq_cons cfg s m ft rest hm] at hx
    have h2 := exitTty_stderr cfg _ _ hx
    rw [h2]
    exact exitPrint_stderr cfg m ft _ hf

theorem stop_ok_stderr (cfg : BSConfig) (s s' : BSState) (hf : s.console.stderr = false)
    (hx : cfg.stop s = .ok s') : s'.console.stderr = false := by
  cases hm : s.messages with
  | nil => rw [stop_eq_nil cfg s hm] at hx; cases hx
  | cons e rest =>
    obtain ⟨m, ft⟩ := e
    rw [stop_eq_cons cfg s m ft rest hm] at hx
    split at hx
    · cases hx; exact outputT_stderr _ _
    · cases hx; rw [stopHandle_console]; exact hf

theorem enter_stderr (cfg : BSConfig) (s : BSState) (hf : s.console.stderr = false) :
    (cfg.enter s).console.stderr = false := by
  obtain ⟨c, st, msgs, a, d⟩ := s
  cases msgs with
  | nil => exact hf
  | cons e rest =>
    obtain ⟨m, ft⟩ := e
    unfold BSConfig.enter
    by_cases htty : cfg.tty
    · simp only [htty, Bool.not_true, Bool.false_eq_true, if_false]
      cases st <;> exact hf
    · simp only [Bool.not_eq_true] at htty
      simp only [htty, Bool.not_false, if_true]
      exact outputT_stderr _ _

theorem bs_exec1_stderr (cfg : BSConfig) (s : BSState) (op : BSOp)
    (hf : s.console.stderr = false) : (cfg.exec1 s op).console.stderr = false := by
  cases op with
  | call m ft => exact hf
  | enter => exact enter_stderr cfg s hf
  | exit =>
    simp only [BSConfig.exec1]
    cases hx : cfg.exit s with
    | error e => exact hf
    | ok s' => exact exit_ok_stderr cfg s s' hf hx
  | stop =>
    simp only [BSConfig.exec1]
    cases hx : cfg.stop s with
    | error e => exact hf
    | ok s' => exact stop_ok_stderr cfg s s' hf hx

theorem bs_execOps_stderr (cfg : BSConfig) (ops : List BSOp) :
    (cfg.execOps bsInit ops).console.stderr = false := by
  suffices h : ∀ (ops : List BSOp) (s : BSState), s.console.stderr = false →
      (cfg.execOps s ops).console.stderr = false from h ops bsInit rfl
  intro ops
  induction ops with
  | nil => intro s hf; exact hf
  | cons op rest ih => intro s hf; exact ih _ (bs_exec1_stderr cfg s op hf)

theorem enter_status_nontty (cfg : BSConfig) (s : BSState) (htty : cfg.tty = false)
    (hs : s.status = none) : (cfg.enter s).status = none := by
  obtain ⟨c, st, msgs, a, d⟩ := s
  cases msgs with
  | nil => exact hs
  | cons e rest =>
    obtain ⟨m, ft⟩ := e
    unfold BSConfig.enter
    simp only [htty, Bool.not_false, if_true]
    rw [outputT_status]; exact hs

theorem bs_exec1_status_nontty (cfg : BSConfig) (s : BSState) (op : BSOp)
    (htty : cfg.tty = false) (hs : s.status = none) : (cfg.exec1 s op).status = none := by
  cases op with
  | call m ft => exact hs
  | enter => exact enter_status_nontty cfg s htty hs
  | exit =>
    simp only [BSConfig.exec1]
    cases hx : cfg.exit s with
    | error e => exact hs
    | ok s' =>
      cases hm : s.messages with
      | nil => rw [exit_eq_nil cfg s hm] at hx; cases hx
      | cons e rest =>
        obtain ⟨m, ft⟩ := e
        rw [exit_eq_cons cfg s m ft rest hm] at hx
        unfold exitTty at hx
        simp only [htty, Bool.not_false, if_true] at hx
        cases hx
        rw [exitPrint_status]; exact hs
  | stop =>
    simp only [BSConfig.exec1]
    cases hx : cfg.stop s with
    | error e => exact hs
    | ok s' =>
      cases hm : s.messages with
      | nil => rw [stop_eq_nil cfg s hm] at hx; cases hx
      | cons e rest =>
        obtain ⟨m, ft⟩ := e
        rw [stop_eq_cons cfg s m ft rest hm] at hx
        have hsh : (stopHandle s).status = none := by
          unfold stopHandle; rw [hs]; exact hs
        split at hx
        · cases hx; rw [outputT_status]; exact hsh
        · cases hx; exact hsh

theorem bs_execOps_status_nontty (cfg : BSConfig) (ops : List BSOp) (htty : cfg.tty = false) :
    (cfg.execOps bsInit ops).status = none := by
  suffices h : ∀ (ops : List BSOp) (s : BSState), s.status = none →
      (cfg.execOps s ops).status = none from h ops bsInit rfl
  intro ops
  induction ops with
  | nil => intro s hs; exact hs
  | cons op rest ih => intro s hs; exact ih _ (bs_exec1_status_nontty cfg s op htty hs)

/-- Whenever the entering state of the TTY bookkeeping step holds a live
handle, the step succeeds and leaves the console's printed output and
stream flag untouched. -/
theorem exitTty_ok_of_status_some (cfg : BSConfig) (s : BSState) (h : StatusHandle)
    (hst : s.status = some h) :
    ∃ s', exitTty cfg s = .ok s' ∧ s'.console.output = s.console.output ∧
      s'.console.stderr = s.console.stderr := by
  obtain ⟨c, st, msgs, a, d⟩ := s
  simp only at hst
  subst hst
  unfold exitTty
  by_cases htty : cfg.tty
  · simp only [htty, Bool.not_true, Bool.false_eq_true, if_false]
    cases msgs with
    | nil => exact ⟨_, rfl, rfl, rfl⟩
    | cons e rest => obtain ⟨m, ft⟩ := e; exact ⟨_, rfl, rfl, rfl⟩
  · simp only [Bool.not_eq_true] at htty
    simp only [htty, Bool.not_false, if_true]
    exact ⟨_, rfl, rfl, rfl⟩

/-- The TTY bookkeeping step when not attached to a terminal: nothing to
do. -/
theorem exitTty_nontty (cfg : BSConfig) (s : BSState) (htty : cfg.tty = false) :
    exitTty cfg s = .ok s := by
  unfold exitTty
  simp only [htty, Bool.not_false, if_true]

/-- The TTY bookkeeping step when the pop emptied the stack: the handle is
cleared and the detach hook runs. -/
theorem exitTty_some_nil (cfg : BSConfig) (s : BSState) (h : StatusHandle)
    (hst : s.status = some h) (hm : s.messages = []) (htty : cfg.tty = true) :
    exitTty cfg s = .ok { s with status := none, detachCalls := s.detachCalls + 1 } := by
  obtain ⟨c, st, msgs, a, d⟩ := s
  simp only at hst hm
  subst hst; subst hm
  unfold exitTty
  simp only [htty, Bool.not_true, Bool.false_eq_true, if_false]

/-- The TTY bookkeeping step when entries remain: a fresh handle is started
for the uncovered top entry, rendering its stored waiting message. -/
theorem exitTty_some_cons (cfg : BSConfig) (s : BSState) (h : StatusHandle)
    (hst : s.status = some h) (e2 : Text × String) (r2 : List (Text × String))
    (hm : s.messages = e2 :: r2) (htty : cfg.tty = true) :
    exitTty cfg s = .ok
      { s with
        console := { s.console with nextId := s.console.nextId + 1 }
        status := some ⟨s.console.nextId, e2.1, true⟩ } := by
  obtain ⟨c, st, msgs, a, d⟩ := s
  obtain ⟨m2, ft2⟩ := e2
  simp only at hst hm
  subst hst; subst hm
  unfold exitTty
  simp only [htty, Bool.not_true, Bool.false_eq_true, if_false]
  rfl

/-! ### Claims -/

/-- C1 (counterexample to the claim as stated): calling `stop()` on a fresh
`BorrowedStatus` whose message stack is empty is not a safe no-op — it
raises an `IndexError` from the unconditional `self.__messages[-1]` read. -/
theorem c1_counterexample :
    BSConfig.stop ⟨true, 0, "simpleDotsScrolling", "bold magenta", "bold cyan"⟩ bsInit
      = .error "IndexError: list index out of range" := rfl

/-- C1 (amended): calling `stop()` when the status stack is empty raises an
`IndexError` (the top message is read unconditionally) instead of being a
no-op. -/
theorem c1_stop_empty_raises (cfg : BSConfig) (s : BSState) (hm : s.messages = []) :
    cfg.stop s = .error "IndexError: list index out of range" :=
  stop_eq_nil cfg s hm

theorem c1_stop_empty_raises_witness :
    bsInit.messages = [] ∧
      BSConfig.stop ⟨false, 3, "simpleDotsScrolling", "bold magenta", "bold cyan"⟩ bsInit
        = .error "IndexError: list index out of range" :=
  ⟨rfl, c1_stop_empty_raises ⟨false, 3, "simpleDotsScrolling", "bold magenta", "bold cyan"⟩
    bsInit rfl⟩

/-- C2: a release (`__exit__`) when the entries stack is empty fails fast
with an error (the pop raises `IndexError`), rather than silently doing
nothing. -/
theorem c2_exit_empty_fails (cfg : BSConfig) (s : BSState) (hm : s.messages = []) :
    cfg.exit s = .error "IndexError: pop from empty list" :=
  exit_eq_nil cfg s hm

theorem c2_exit_empty_fails_witness :
    bsInit.messages = [] ∧
      BSConfig.exit ⟨true, 1, "simpleDotsScrolling", "bold magenta", "bold cyan"⟩ bsInit
        = .error "IndexError: pop from empty list" :=
  ⟨rfl, c2_exit_empty_fails ⟨true, 1, "simpleDotsScrolling", "bold magenta", "bold cyan"⟩
    bsInit rfl⟩

/-- C10: entering the status context manager when the message stack is
empty is a silent no-op: the state is returned unchanged (nothing printed,
no handle started, attach hook not invoked). -/
theorem c10_enter_empty_noop (cfg : BSConfig) (s : BSState) (hm : s.messages = []) :
    cfg.enter s = s := by
  obtain ⟨c, st, msgs, a, d⟩ := s
  simp only at hm
  subst hm
  rfl

theorem c10_enter_empty_noop_witness :
    bsInit.messages = [] ∧
      BSConfig.enter ⟨true, 2, "simpleDotsScrolling", "bold magenta", "bold cyan"⟩ bsInit
        = bsInit :=
  ⟨rfl, c10_enter_empty_noop ⟨true, 2, "simpleDotsScrolling", "bold magenta", "bold cyan"⟩
    bsInit rfl⟩

/-- C4: when a completion line is printed — on pop (`__exit__`) or on
`stop()`, with `verbosity > 0` and an active live handle — its text is
exactly `"Finished "` followed by the waiting message with only its first
character lowercased, when the stored final text is empty; a non-empty
final text is printed verbatim instead (in the success style, on the
secondary stream). -/
theorem c4_completion_text (cfg : BSConfig) (s : BSState) (M ftxt msty : String)
    (rest : List (Text × String)) (hm : s.messages = (⟨M, msty⟩, ftxt) :: rest)
    (hv : cfg.verbosity > 0) (hact : s.active = true) :
    (∃ s', cfg.exit s = .ok s' ∧ s'.console.output = s.console.output ++
        [⟨.txt ⟨if ftxt = "" then "Finished " ++ lowerFirst M else ftxt,
          cfg.success_style⟩, none, true⟩]) ∧
    (∃ s', cfg.stop s = .ok s' ∧ s'.console.output = s.console.output ++
        [⟨.txt ⟨if ftxt = "" then "Finished " ++ lowerFirst M else ftxt,
          cfg.success_style⟩, none, true⟩]) := by
  obtain ⟨h0, hst⟩ : ∃ h0, s.status = some h0 := by
    unfold BSState.active at hact
    cases hstt : s.status with
    | none => rw [hstt] at hact; cases hact
    | some h0 => exact ⟨h0, rfl⟩
  constructor
  · rw [exit_eq_cons cfg s ⟨M, msty⟩ ftxt rest hm]
    have hact1 : BSState.active { s with messages := rest } = true := hact
    have hcond : (decide (cfg.verbosity > 0) && BSState.active { s with messages := rest })
        = true := by rw [hact1, Bool.and_true]; exact decide_eq_true hv
    have hep : exitPrint cfg ⟨M, msty⟩ ftxt { s with messages := rest }
        = BSState.outputT { s with messages := rest }
            ⟨if ftxt = "" then finishedText M else ftxt, cfg.success_style⟩ := by
      unfold exitPrint
      rw [if_pos hcond]
    rw [hep]
    have hst2 : (BSState.outputT { s with messages := rest }
        ⟨if ftxt = "" then finishedText M else ftxt, cfg.success_style⟩).status
          = some h0 := by
      rw [outputT_status]; exact hst
    obtain ⟨s', hok, hout, _⟩ := exitTty_ok_of_status_some cfg _ h0 hst2
    refine ⟨s', hok, ?_⟩
    rw [hout, outputT_output]
    simp [finishedText]
  · rw [stop_eq_cons cfg s ⟨M, msty⟩ ftxt rest hm]
    have hcond : (decide (cfg.verbosity > 0) && s.active) = true := by
      rw [hact, Bool.and_true]; exact decide_eq_true hv
    rw [if_pos hcond]
    refine ⟨_, rfl, ?_⟩
    rw [outputT_output, stopHandle_console]
    simp [finishedText]

theorem c4_completion_text_witness :
    stSample.messages = [(⟨"Resolving dependencies", "bold magenta"⟩, "")] ∧
    cfgSample.verbosity > 0 ∧ stSample.active = true ∧
    ((∃ s', cfgSample.exit stSample = .ok s' ∧ s'.console.output = stSample.console.output ++
        [⟨.txt ⟨if "" = "" then "Finished " ++ lowerFirst "Resolving dependencies" else "",
          cfgSample.success_style⟩, none, true⟩]) ∧
     (∃ s', cfgSample.stop stSample = .ok s' ∧ s'.console.output = stSample.console.output ++
        [⟨.txt ⟨if "" = "" then "Finished " ++ lowerFirst "Resolving dependencies" else "",
          cfgSample.success_style⟩, none, true⟩])) :=
  ⟨rfl, by decide, rfl,
    c4_completion_text cfgSample stSample "Resolving dependencies" "" "bold magenta" []
      rfl (by decide) rfl⟩

/-- C3: in non-TTY mode, from any reachable state, entering an acquired
status prints exactly one plain styled line carrying the waiting message
(and changes nothing else), and exiting (the pop) prints nothing — for
every verbosity and even when the stored final text is non-empty. -/
theorem c3_non_tty_linearity (cfg : BSConfig) (ops : List BSOp) (msg ftxt : String)
    (htty : cfg.tty = false) :
    cfg.enter (cfg.call (cfg.execOps bsInit ops) msg ftxt)
      = { cfg.call (cfg.execOps bsInit ops) msg ftxt with
          console := { (cfg.execOps bsInit ops).console with
            output := (cfg.execOps bsInit ops).console.output ++
              [⟨.txt ⟨msg, cfg.waiting_style⟩, none, true⟩] } } ∧
    (∃ s3, cfg.exit (cfg.enter (cfg.call (cfg.execOps bsInit ops) msg ftxt)) = .ok s3 ∧
      s3.console.output
        = (cfg.enter (cfg.call (cfg.execOps bsInit ops) msg ftxt)).console.output) := by
  have hf : (cfg.execOps bsInit ops).console.stderr = false := bs_execOps_stderr cfg ops
  have hs : (cfg.execOps bsInit ops).status = none := bs_execOps_status_nontty cfg ops htty
  have he : cfg.enter (cfg.call (cfg.execOps bsInit ops) msg ftxt)
      = (cfg.call (cfg.execOps bsInit ops) msg ftxt).outputT ⟨msg, cfg.waiting_style⟩ := by
    simp only [BSConfig.enter, BSConfig.call, htty, Bool.not_false, if_true]
  constructor
  · rw [he]
    simp [BSState.outputT, BSState.outputTextEx, ConsoleState.print, BSConfig.call, hf]
  · have hm2 : (cfg.enter (cfg.call (cfg.execOps bsInit ops) msg ftxt)).messages
        = (⟨msg, cfg.waiting_style⟩, ftxt) :: (cfg.execOps bsInit ops).messages := by
      rw [he, outputT_messages]; rfl
    rw [exit_eq_cons cfg _ ⟨msg, cfg.waiting_style⟩ ftxt _ hm2]
    have hs2 : (BSState.active
        { cfg.enter (cfg.call (cfg.execOps bsInit ops) msg ftxt) with
          messages := (cfg.execOps bsInit ops).messages }) = false := by
      unfold BSState.active
      have : (cfg.enter (cfg.call (cfg.execOps bsInit ops) msg ftxt)).status = none := by
        rw [he, outputT_status]; exact hs
      simp only [this]
    have hep : exitPrint cfg ⟨msg, cfg.waiting_style⟩ ftxt
        { cfg.enter (cfg.call (cfg.execOps bsInit ops) msg ftxt) with
          messages := (cfg.execOps bsInit ops).messages }
        = { cfg.enter (cfg.call (cfg.execOps bsInit ops) msg ftxt) with
            messages := (cfg.execOps bsInit ops).messages } := by
      unfold exitPrint
      rw [if_neg (by simp [hs2])]
    rw [hep, exitTty_nontty cfg _ htty]
    exact ⟨_, rfl, rfl⟩

theorem c3_non_tty_linearity_witness :
    cfgSampleNoTty.tty = false ∧
    (cfgSampleNoTty.enter (cfgSampleNoTty.call (cfgSampleNoTty.execOps bsInit []) "Building"
        "done")
      = { cfgSampleNoTty.call (cfgSampleNoTty.execOps bsInit []) "Building" "done" with
          console := { (cfgSampleNoTty.execOps bsInit []).console with
            output := (cfgSampleNoTty.execOps bsInit []).console.output ++
              [⟨.txt ⟨"Building", cfgSampleNoTty.waiting_style⟩, none, true⟩] } } ∧
      ∃ s3, cfgSampleNoTty.exit (cfgSampleNoTty.enter (cfgSampleNoTty.call
          (cfgSampleNoTty.execOps bsInit []) "Building" "done")) = .ok s3 ∧
        s3.console.output = (cfgSampleNoTty.enter (cfgSampleNoTty.call
          (cfgSampleNoTty.execOps bsInit []) "Building" "done")).console.output) :=
  ⟨rfl, c3_non_tty_linearity cfgSampleNoTty [] "Building" "done" rfl⟩

/-- C9: in TTY mode, pushing status A then status B and popping B leaves
the live handle as a freshly allocated started spinner rendering A's
original waiting message (the shadowed entry reappears, with a handle
identity different from B's); in general, on a successful pop the handle is
cleared and the detach hook runs exactly when the pop empties the stack,
and otherwise a fresh started handle for the uncovered entry's stored
message is installed and the detach hook does not run. -/
theorem c9_nested_restore (cfg : BSConfig) (A B ftA ftB : String) (htty : cfg.tty = true) :
    (∃ s3, cfg.exit (cfg.enter (cfg.call (cfg.enter (cfg.call bsInit A ftA)) B ftB)) = .ok s3 ∧
        s3.status = some ⟨2, ⟨A, cfg.waiting_style⟩, true⟩ ∧
        (cfg.enter (cfg.call (cfg.enter (cfg.call bsInit A ftA)) B ftB)).status
          = some ⟨1, ⟨B, cfg.waiting_style⟩, true⟩ ∧
        s3.detachCalls = 0 ∧ s3.messages = [(⟨A, cfg.waiting_style⟩, ftA)]) ∧
    (∀ (s s' : BSState) (e : Text × String) (rest : List (Text × String)),
        s.messages = e :: rest → cfg.exit s = .ok s' →
        (rest = [] → s'.status = none ∧ s'.detachCalls = s.detachCalls + 1) ∧
        (∀ e2 r2, rest = e2 :: r2 →
          s'.detachCalls = s.detachCalls ∧ s'.messages = rest ∧
          s'.status = some ⟨s.console.nextId, e2.1, true⟩)) := by
  have hgen : ∀ (s s' : BSState) (e : Text × String) (rest : List (Text × String)),
      s.messages = e :: rest → cfg.exit s = .ok s' →
      (rest = [] → s'.status = none ∧ s'.detachCalls = s.detachCalls + 1) ∧
      (∀ e2 r2, rest = e2 :: r2 →
        s'.detachCalls = s.detachCalls ∧ s'.messages = rest ∧
        s'.status = some ⟨s.console.nextId, e2.1, true⟩) := by
    intro s s' e rest hm hx
    obtain ⟨m, ft⟩ := e
    rw [exit_eq_cons cfg s m ft rest hm] at hx
    have hpm : (exitPrint cfg m ft { s with messages := rest }).messages = rest := by
      rw [exitPrint_messages]
    have hpd : (exitPrint cfg m ft { s with messages := rest }).detachCalls
        = s.detachCalls := by rw [exitPrint_detach]
    have hpn : (exitPrint cfg m ft { s with messages := rest }).console.nextId
        = s.console.nextId := by rw [exitPrint_nextId]
    cases hstt : (exitPrint cfg m ft { s with messages := rest }).status with
    | none =>
      have herr : exitTty cfg (exitPrint cfg m ft { s with messages := rest })
          = .error "AttributeError: NoneType object has no attribute stop" := by
        unfold exitTty
        simp only [htty, Bool.not_true, Bool.false_eq_true, if_false, hstt]
      rw [herr] at hx
      cases hx
    | some h =>
      constructor
      · intro hrest
        subst hrest
        rw [exitTty_some_nil cfg _ h hstt hpm htty] at hx
        cases hx
        exact ⟨rfl, by simp only [hpd]⟩
      · intro e2 r2 hrest
        subst hrest
        rw [exitTty_some_cons cfg _ h hstt e2 r2 hpm htty] at hx
        cases hx
        exact ⟨by simp only [hpd], by simp only [hpm], by simp only [hpn]⟩
  refine ⟨?_, hgen⟩
  have h2 : cfg.enter (cfg.call bsInit A ftA)
      = ⟨{ nextId := 1 }, some ⟨0, ⟨A, cfg.waiting_style⟩, true⟩,
          [(⟨A, cfg.waiting_style⟩, ftA)], 1, 0⟩ := by
    simp only [BSConfig.enter, BSConfig.call, bsInit, htty, Bool.not_true, Bool.false_eq_true,
      if_false]
    rfl
  rw [h2]
  have h4 : cfg.enter (cfg.call
      (⟨{ nextId := 1 }, some ⟨0, ⟨A, cfg.waiting_style⟩, true⟩,
        [(⟨A, cfg.waiting_style⟩, ftA)], 1, 0⟩ : BSState) B ftB)
      = ⟨{ nextId := 2 }, some ⟨1, ⟨B, cfg.waiting_style⟩, true⟩,
          [(⟨B, cfg.waiting_style⟩, ftB), (⟨A, cfg.waiting_style⟩, ftA)], 1, 0⟩ := by
    simp only [BSConfig.enter, BSConfig.call, htty, Bool.not_true, Bool.false_eq_true, if_false]
    rfl
  rw [h4]
  have hstt : (exitPrint cfg ⟨B, cfg.waiting_style⟩ ftB
      { (⟨{ nextId := 2 }, some ⟨1, ⟨B, cfg.waiting_style⟩, true⟩,
          [(⟨B, cfg.waiting_style⟩, ftB), (⟨A, cfg.waiting_style⟩, ftA)], 1, 0⟩ : BSState)
        with messages := [(⟨A, cfg.waiting_style⟩, ftA)] }).status
      = some ⟨1, ⟨B, cfg.waiting_style⟩, true⟩ := by
    rw [exitPrint_status]
  have hpm : (exitPrint cfg ⟨B, cfg.waiting_style⟩ ftB
      { (⟨{ nextId := 2 }, some ⟨1, ⟨B, cfg.waiting_style⟩, true⟩,
          [(⟨B, cfg.waiting_style⟩, ftB), (⟨A, cfg.waiting_style⟩, ftA)], 1, 0⟩ : BSState)
        with messages := [(⟨A, cfg.waiting_style⟩, ftA)] }).messages
      = (⟨A, cfg.waiting_style⟩, ftA) :: [] := by
    rw [exitPrint_messages]
  have hx : cfg.exit (⟨{ nextId := 2 }, some ⟨1, ⟨B, cfg.waiting_style⟩, true⟩,
      [(⟨B, cfg.waiting_style⟩, ftB), (⟨A, cfg.waiting_style⟩, ftA)], 1, 0⟩ : BSState)
      = .ok { exitPrint cfg ⟨B, cfg.waiting_style⟩ ftB
          { (⟨{ nextId := 2 }, some ⟨1, ⟨B, cfg.waiting_style⟩, true⟩,
              [(⟨B, cfg.waiting_style⟩, ftB), (⟨A, cfg.waiting_style⟩, ftA)], 1,
                0⟩ : BSState)
            with messages := [(⟨A, cfg.waiting_style⟩, ftA)] } with
          console := { (exitPrint cfg ⟨B, cfg.waiting_style⟩ ftB
            { (⟨{ nextId := 2 }, some ⟨1, ⟨B, cfg.waiting_style⟩, true⟩,
                [(⟨B, cfg.waiting_style⟩, ftB), (⟨A, cfg.waiting_style⟩, ftA)], 1,
                  0⟩ : BSState)
              with messages := [(⟨A, cfg.waiting_style⟩, ftA)] }).console with
            nextId := (exitPrint cfg ⟨B, cfg.waiting_style⟩ ftB
              { (⟨{ nextId := 2 }, some ⟨1, ⟨B, cfg.waiting_style⟩, true⟩,
                  [(⟨B, cfg.waiting_style⟩, ftB), (⟨A, cfg.waiting_style⟩, ftA)], 1,
                    0⟩ : BSState)
                with messages := [(⟨A, cfg.waiting_style⟩, ftA)] }).console.nextId + 1 }
          status := some ⟨(exitPrint cfg ⟨B, cfg.waiting_style⟩ ftB
            { (⟨{ nextId := 2 }, some ⟨1, ⟨B, cfg.waiting_style⟩, true⟩,
                [(⟨B, cfg.waiting_style⟩, ftB), (⟨A, cfg.waiting_style⟩, ftA)], 1,
                  0⟩ : BSState)
              with messages := [(⟨A, cfg.waiting_style⟩, ftA)] }).console.nextId,
            (⟨A, cfg.waiting_style⟩, ftA).1, true⟩ } := by
    rw [exit_eq_cons cfg _ ⟨B, cfg.waiting_style⟩ ftB [(⟨A, cfg.waiting_style⟩, ftA)] rfl]
    exact exitTty_some_cons cfg _ ⟨1, ⟨B, cfg.waiting_style⟩, true⟩ hstt
      (⟨A, cfg.waiting_style⟩, ftA) [] hpm htty
  refine ⟨_, hx, ?_, rfl, ?_, ?_⟩
  · simp only [exitPrint_nextId]
  · simp only [exitPrint_detach]
  · simp only [exitPrint_messages]


theorem c9_nested_restore_witness :
    cfgSample.tty = true ∧
    ((∃ s3, cfgSample.exit (cfgSample.enter (cfgSample.call
          (cfgSample.enter (cfgSample.call bsInit "A" "")) "B" "")) = .ok s3 ∧
        s3.status = some ⟨2, ⟨"A", cfgSample.waiting_style⟩, true⟩ ∧
        (cfgSample.enter (cfgSample.call (cfgSample.enter (cfgSample.call bsInit "A" ""))
            "B" "")).status = some ⟨1, ⟨"B", cfgSample.waiting_style⟩, true⟩ ∧
        s3.detachCalls = 0 ∧ s3.messages = [(⟨"A", cfgSample.waiting_style⟩, "")]) ∧
     (∀ (s s' : BSState) (e : Text × String) (rest : List (Text × String)),
        s.messages = e :: rest → cfgSample.exit s = .ok s' →
        (rest = [] → s'.status = none ∧ s'.detachCalls = s.detachCalls + 1) ∧
        (∀ e2 r2, rest = e2 :: r2 →
          s'.detachCalls = s.detachCalls ∧ s'.messages = rest ∧
          s'.status = some ⟨s.console.nextId, e2.1, true⟩))) :=
  ⟨rfl, c9_nested_restore cfgSample "A" "B" "" "" rfl⟩

/-! ### Terminal output-sink claims -/

theorem output_stderr_flag (t : Terminal) (text : String) (style : Option StyleV)
    (stderr : Bool) (indent link : String) (raises : Bool)
    (hf : t.console.stderr = false) :
    (t.output text style stderr indent link raises).2.console.stderr = false := by
  obtain ⟨v, ⟨cstderr, cout, cnid⟩, attrs⟩ := t
  simp only at hf
  subst hf
  unfold Terminal.output
  rcases eq_or_ne link "" with hl | hl
  · subst hl
    cases style with
    | none => cases stderr <;> cases raises <;> rfl
    | some sv => cases sv <;> cases stderr <;> cases raises <;> rfl
  · rw [if_pos hl]
    cases style with
    | none => rfl
    | some sv =>
      cases sv with
      | raw s => rfl
      | parsed st => cases stderr <;> cases raises <;> rfl

theorem exec1_stderr (t : Terminal) (op : TOp) (hf : t.console.stderr = false) :
    (t.exec1 op).console.stderr = false := by
  cases op with
  | display text raises =>
    simp only [Terminal.exec1, Terminal.display, ConsoleState.print]
    cases raises <;> exact hf
  | displayCritical text raises => rfl
  | displayError text stderr indent link raises =>
    simp only [Terminal.exec1, Terminal.displayError]
    split
    · exact hf
    · exact output_stderr_flag t text _ stderr indent link raises hf
  | displayWarning text stderr indent link raises =>
    simp only [Terminal.exec1, Terminal.displayWarning]
    split
    · exact hf
    · exact output_stderr_flag t text _ stderr indent link raises hf
  | displayInfo text stderr indent link raises =>
    simp only [Terminal.exec1, Terminal.displayInfo]
    split
    · exact hf
    · exact output_stderr_flag t text _ stderr indent link raises hf
  | displaySuccess text stderr indent link raises =>
    simp only [Terminal.exec1, Terminal.displaySuccess]
    split
    · exact hf
    · exact output_stderr_flag t text _ stderr indent link raises hf
  | displayWaiting text stderr indent link raises =>
    simp only [Terminal.exec1, Terminal.displayWaiting]
    split
    · exact hf
    · exact output_stderr_flag t text _ stderr indent link raises hf
  | displayDebug text level stderr indent link raises =>
    simp only [Terminal.exec1, Terminal.displayDebug]
    split
    · exact hf
    · split
      · exact hf
      · exact output_stderr_flag t text _ stderr indent link raises hf
  | displayRaw text raises =>
    simp only [Terminal.exec1, Terminal.displayRaw, ConsoleState.print]
    cases raises <;> exact hf
  | output text style stderr indent link raises =>
    simp only [Terminal.exec1]
    exact output_stderr_flag t text style stderr indent link raises hf

theorem execOps_stderr (v : Int) (ops : List TOp) :
    ((Terminal.mkT v).execOps ops).console.stderr = false := by
  suffices h : ∀ (ops : List TOp) (t : Terminal), t.console.stderr = false →
      (t.execOps ops).console.stderr = false from h ops (Terminal.mkT v) rfl
  intro ops
  induction ops with
  | nil => intro t hf; exact hf
  | cons op rest ih => intro t hf; exact ih _ (exec1_stderr t op hf)

/-- C5: every `output` call that targets the secondary (error) stream, and
every `BorrowedStatus.__output` call, leaves the sink's stream-selection
flag equal to the value it had before the call — on every exit path,
including when the renderer raises during the call — for every state
reachable through the public display/status operations, so stream state
never leaks to the next call. -/
theorem c5_stream_restoration :
    (∀ (v : Int) (ops : List TOp) (text : String) (style : Option StyleV)
        (indent link : String) (raises : Bool),
      (((Terminal.mkT v).execOps ops).output text style true indent link
          raises).2.console.stderr
        = ((Terminal.mkT v).execOps ops).console.stderr) ∧
    (∀ (cfg : BSConfig) (ops : List BSOp) (t : Text) (raises : Bool),
      ((cfg.execOps bsInit ops).outputTextEx t raises).2.console.stderr
        = (cfg.execOps bsInit ops).console.stderr) := by
  constructor
  · intro v ops text style indent link raises
    rw [execOps_stderr v ops]
    exact output_stderr_flag _ text style true indent link raises (execOps_stderr v ops)
  · intro cfg ops t raises
    rw [bs_execOps_stderr cfg ops]
    exact outputTextEx_stderr _ t raises

theorem output_fst_ne_valueError (t : Terminal) (text : String) (style : Option StyleV)
    (stderr : Bool) (indent link : String) (raises : Bool) (msg : String) :
    (t.output text style stderr indent link raises).1 ≠ some (.valueError msg) := by
  unfold Terminal.output
  rcases eq_or_ne link "" with hl | hl
  · subst hl
    cases style with
    | none => cases stderr <;> cases raises <;> simp [ConsoleState.print]
    | some sv => cases sv <;> cases stderr <;> cases raises <;> simp [ConsoleState.print]
  · rw [if_pos hl]
    cases style with
    | none => simp
    | some sv =>
      cases sv with
      | raw s => simp [StyleV.updateLink]
      | parsed st =>
        cases stderr <;> cases raises <;> simp [StyleV.updateLink, ConsoleState.print]

/-- C6: `display_debug` fails with its `ValueError` (the InvalidArgument
error) exactly when the level lies outside `1..3`; the check runs before
any verbosity gating or output, so at levels 0 and 4 the call returns the
error with the terminal unchanged for every verbosity, and for levels in
`1..3` the call never fails with that error. -/
theorem c6_debug_level_check (t : Terminal) (text : String) (level : Int)
    (stderr : Bool) (indent link : String) (raises : Bool) :
    ((t.displayDebug text level stderr indent link raises).1
        = some (.valueError debugRangeMsg) ↔ ¬(1 ≤ level ∧ level ≤ 3)) ∧
    t.displayDebug text 0 stderr indent link raises = (some (.valueError debugRangeMsg), t) ∧
    t.displayDebug text 4 stderr indent link raises = (some (.valueError debugRangeMsg), t) := by
  refine ⟨⟨?_, ?_⟩, ?_, ?_⟩
  · intro h1
    intro hrange
    unfold Terminal.displayDebug at h1
    rw [if_neg (not_not_intro hrange)] at h1
    split at h1
    · cases h1
    · exact output_fst_ne_valueError t text _ stderr indent link raises debugRangeMsg h1
  · intro hout
    unfold Terminal.displayDebug
    rw [if_pos hout]
  · unfold Terminal.displayDebug
    rw [if_pos (by decide)]
  · unfold Terminal.displayDebug
    rw [if_pos (by decide)]

theorem c6_debug_level_check_witness :
    (Terminal.mkT 5).displayDebug "boom" 0 true "" "" false
        = (some (.valueError debugRangeMsg), Terminal.mkT 5) ∧
    (Terminal.mkT 5).displayDebug "boom" 4 true "" "" false
        = (some (.valueError debugRangeMsg), Terminal.mkT 5) :=
  (c6_debug_level_check (Terminal.mkT 5) "boom" 0 true "" "" false).2

theorem output_len (t : Terminal) (text : String) (style : Option StyleV)
    (stderr : Bool) (indent : String) :
    (t.output text style stderr indent "" false).2.console.output.length
      = t.console.output.length + 1 := by
  unfold Terminal.output
  cases stderr <;> simp [ConsoleState.print]

/-- C7: each display operation is gated by its own verbosity floor and
emits exactly one output entry iff the terminal's verbosity is at or above
it — error ≥ -2, warning ≥ -1, info, success and waiting ≥ 0, debug ≥ its
level — and below the floor the call is a silent no-op (unchanged state, no
error). -/
theorem c7_verbosity_gating (t : Terminal) (text : String) (stderr : Bool) (indent : String)
    (level : Int) (h1 : 1 ≤ level) (h3 : level ≤ 3) :
    (((t.displayError text stderr indent "" false).2.console.output.length
        = t.console.output.length + 1 ↔ -2 ≤ t.verbosity) ∧
      (t.verbosity < -2 → t.displayError text stderr indent "" false = (none, t))) ∧
    (((t.displayWarning text stderr indent "" false).2.console.output.length
        = t.console.output.length + 1 ↔ -1 ≤ t.verbosity) ∧
      (t.verbosity < -1 → t.displayWarning text stderr indent "" false = (none, t))) ∧
    (((t.displayInfo text stderr indent "" false).2.console.output.length
        = t.console.output.length + 1 ↔ 0 ≤ t.verbosity) ∧
      (t.verbosity < 0 → t.displayInfo text stderr indent "" false = (none, t))) ∧
    (((t.displaySuccess text stderr indent "" false).2.console.output.length
        = t.console.output.length + 1 ↔ 0 ≤ t.verbosity) ∧
      (t.verbosity < 0 → t.displaySuccess text stderr indent "" false = (none, t))) ∧
    (((t.displayWaiting text stderr indent "" false).2.console.output.length
        = t.console.output.length + 1 ↔ 0 ≤ t.verbosity) ∧
      (t.verbosity < 0 → t.displayWaiting text stderr indent "" false = (none, t))) ∧
    (((t.displayDebug text level stderr indent "" false).2.console.output.length
        = t.console.output.length + 1 ↔ level ≤ t.verbosity) ∧
      (t.verbosity < level → t.displayDebug text level stderr indent "" false = (none, t))) := by
  refine ⟨⟨?_, ?_⟩, ⟨?_, ?_⟩, ⟨?_, ?_⟩, ⟨?_, ?_⟩, ⟨?_, ?_⟩, ⟨?_, ?_⟩⟩
  · unfold Terminal.displayError
    by_cases hv : t.verbosity < -2
    · rw [if_pos hv]
      exact iff_of_false (by simp) (by omega)
    · rw [if_neg hv]
      exact iff_of_true (output_len t text _ stderr indent) (by omega)
  · intro hv
    unfold Terminal.displayError
    rw [if_pos hv]
  · unfold Terminal.displayWarning
    by_cases hv : t.verbosity < -1
    · rw [if_pos hv]
      exact iff_of_false (by simp) (by omega)
    · rw [if_neg hv]
      exact iff_of_true (output_len t text _ stderr indent) (by omega)
  · intro hv
    unfold Terminal.displayWarning
    rw [if_pos hv]
  · unfold Terminal.displayInfo
    by_cases hv : t.verbosity < 0
    · rw [if_pos hv]
      exact iff_of_false (by simp) (by omega)
    · rw [if_neg hv]
      exact iff_of_true (output_len t text _ stderr indent) (by omega)
  · intro hv
    unfold Terminal.displayInfo
    rw [if_pos hv]
  · unfold Terminal.displaySuccess
    by_cases hv : t.verbosity < 0
    · rw [if_pos hv]
      exact iff_of_false (by simp) (by omega)
    · rw [if_neg hv]
      exact iff_of_true (output_len t text _ stderr indent) (by omega)
  · intro hv
    unfold Terminal.displaySuccess
    rw [if_pos hv]
  · unfold Terminal.displayWaiting
    by_cases hv : t.verbosity < 0
    · rw [if_pos hv]
      exact iff_of_false (by simp) (by omega)
    · rw [if_neg hv]
      exact iff_of_true (output_len t text _ stderr indent) (by omega)
  · intro hv
    unfold Terminal.displayWaiting
    rw [if_pos hv]
  · unfold Terminal.displayDebug
    rw [if_neg (not_not_intro ⟨h1, h3⟩)]
    by_cases hv : t.verbosity < level
    · rw [if_pos hv]
      exact iff_of_false (by simp) (by omega)
    · rw [if_neg hv]
      exact iff_of_true (output_len t text _ stderr indent) (by omega)
  · intro hv
    unfold Terminal.displayDebug
    rw [if_neg (not_not_intro ⟨h1, h3⟩), if_pos hv]

theorem c7_verbosity_gating_witness :
    1 ≤ (2 : Int) ∧ (2 : Int) ≤ 3 ∧
    ((((Terminal.mkT 1).displayError "x" true "" "" false).2.console.output.length
        = (Terminal.mkT 1).console.output.length + 1 ↔ -2 ≤ (Terminal.mkT 1).verbosity) ∧
      ((Terminal.mkT 1).verbosity < -2 →
        (Terminal.mkT 1).displayError "x" true "" "" false = (none, Terminal.mkT 1))) :=
  ⟨by decide, by decide,
    (c7_verbosity_gating (Terminal.mkT 1) "x" true "" 2 (by decide) (by decide)).1⟩


/-! ### Style-registry helper lemmas -/

theorem str_append_cancel (p a b : String) (h : p ++ a = p ++ b) : a = b := by
  have h2 := congrArg String.data h
  simp [String.data_append] at h2
  exact String.ext h2

theorem lvlAttr_inj {a b : String} (h : lvlAttr a = lvlAttr b) : a = b :=
  str_append_cancel _ _ _ h

theorem pfxAttr_inj {a b : String} (h : pfxAttr a = pfxAttr b) : a = b :=
  str_append_cancel _ _ _ h

theorem lvl_split (b : String) : lvlAttr b = "_style_" ++ ("level_" ++ b) := by
  show "_style_level_" ++ b = _
  rw [← String.append_assoc]
  rfl

theorem pfxAttr_eq_lvlAttr {a b : String} (h : pfxAttr a = lvlAttr b) : a = "level_" ++ b := by
  rw [lvl_split] at h
  exact str_append_cancel _ _ _ h

theorem spinner_ne_lvlAttr (k : String) : pfxAttr "spinner" ≠ lvlAttr k := by
  intro h
  have h2 := pfxAttr_eq_lvlAttr h
  have h3 := congrArg String.data h2
  simp [String.data_append] at h3

theorem getAttr_setAttr_self (l : List (String × StyleV)) (n : String) (v : StyleV) :
    getAttr (setAttr l n v) n = some v := by
  induction l with
  | nil => simp [setAttr, getAttr]
  | cons kv rest ih =>
    obtain ⟨k, w⟩ := kv
    by_cases hk : k = n <;> simp [setAttr, getAttr, hk, ih]

theorem getAttr_setAttr_ne (l : List (String × StyleV)) (n n' : String) (v : StyleV)
    (h : n' ≠ n) : getAttr (setAttr l n v) n' = getAttr l n' := by
  induction l with
  | nil => simp [setAttr, getAttr, Ne.symm h]
  | cons kv rest ih =>
    obtain ⟨k, w⟩ := kv
    by_cases hk : k = n
    · subst hk
      simp [setAttr, getAttr, Ne.symm h]
    · by_cases hk' : k = n' <;> simp [setAttr, getAttr, hk, hk', h, ih]

theorem defaultOf_truthy {k : String} (hk : k ∈ levelNames) :
    (StyleV.raw (defaultOf k)).truthy = true := by
  simp only [levelNames, List.mem_cons, List.not_mem_nil, or_false] at hk
  rcases hk with rfl | rfl | rfl | rfl | rfl | rfl <;> decide

theorem getAttr_init_level {k : String} (hk : k ∈ levelNames) :
    getAttr initAttrs (lvlAttr k) = some (.raw (defaultOf k)) := by
  simp only [levelNames, List.mem_cons, List.not_mem_nil, or_false] at hk
  rcases hk with rfl | rfl | rfl | rfl | rfl | rfl <;> decide

theorem getAttr_init_not_level {k : String} (hk : k ∉ levelNames) :
    getAttr initAttrs (lvlAttr k) = none := by
  simp only [levelNames, List.mem_cons, List.not_mem_nil, or_false, not_or] at hk
  obtain ⟨h1, h2, h3, h4, h5, h6⟩ := hk
  have e1 : (lvlAttr "success" = lvlAttr k) = False :=
    eq_false fun h => h1 (lvlAttr_inj h).symm
  have e2 : (lvlAttr "error" = lvlAttr k) = False :=
    eq_false fun h => h2 (lvlAttr_inj h).symm
  have e3 : (lvlAttr "warning" = lvlAttr k) = False :=
    eq_false fun h => h3 (lvlAttr_inj h).symm
  have e4 : (lvlAttr "waiting" = lvlAttr k) = False :=
    eq_false fun h => h4 (lvlAttr_inj h).symm
  have e5 : (lvlAttr "info" = lvlAttr k) = False :=
    eq_false fun h => h5 (lvlAttr_inj h).symm
  have e6 : (lvlAttr "debug" = lvlAttr k) = False :=
    eq_false fun h => h6 (lvlAttr_inj h).symm
  have esp : (pfxAttr "spinner" = lvlAttr k) = False :=
    eq_false (spinner_ne_lvlAttr k)
  simp only [initAttrs, getAttr, e1, e2, e3, e4, e5, e6, esp, if_false]

theorem short_ne_level (k m2 : String) (hlen : k.length < 6) : k ≠ "level_" ++ m2 := by
  intro h
  have hL := congrArg String.length h
  rw [String.length_append] at hL
  have h6 : ("level_" : String).length = 6 := rfl
  omega


theorem initStyles_chain (parse : String → Except String Style)
    (hp : ∀ k ∈ levelNames, ∃ st, parse (defaultOf k) = .ok st) :
    ∀ (l : List (String × String)) (t : Terminal) (errs : List String),
      (∀ kv ∈ l, ∀ m2 : String, kv.1 ≠ "level_" ++ m2) →
      (l.map Prod.fst).Nodup →
      (∀ k ∈ levelNames, k ∈ l.map Prod.fst →
        getAttr t.attrs (lvlAttr k) = some (.raw (defaultOf k))) →
      (∀ kv ∈ l, kv.1 ∉ levelNames → getAttr t.attrs (lvlAttr kv.1) = none) →
      ∃ errs2 t2,
        Terminal.initStyles parse t l errs = .ok (errs ++ errs2, t2) ∧
        (∀ kv ∈ l, kv.1 ∈ levelNames →
          (∀ st, parse kv.2 = .ok st →
            getAttr t2.attrs (lvlAttr kv.1) = some (.parsed st)) ∧
          (∀ e, parse kv.2 = .error e →
            (∃ st, parse (defaultOf kv.1) = .ok st ∧
              getAttr t2.attrs (lvlAttr kv.1) = some (.parsed st)) ∧
            mkStyleErr kv.1 (.raw (defaultOf kv.1)) e ∈ errs2)) ∧
        (∀ kv ∈ l, kv.1 ∉ levelNames →
          getAttr t2.attrs (pfxAttr kv.1) = some (.raw kv.2)) ∧
        ((∀ kv ∈ l, ∃ st, parse kv.2 = .ok st) → errs2 = []) ∧
        (∀ a : String, (∀ kv ∈ l, a ≠ wAttr kv.1) →
          getAttr t2.attrs a = getAttr t.attrs a) := by
  intro l
  induction l with
  | nil =>
    intro t errs _ _ _ _
    refine ⟨[], t, by simp [Terminal.initStyles], ?_, ?_, fun _ => rfl, fun a _ => rfl⟩
    · intro kv hkv; exact absurd hkv (List.not_mem_nil _)
    · intro kv hkv; exact absurd hkv (List.not_mem_nil _)
  | cons kv0 rest ih =>
    obtain ⟨k, v⟩ := kv0
    intro t errs hnl hnd hinv1 hinv2
    have hnl' : ∀ kv ∈ rest, ∀ m2 : String, kv.1 ≠ "level_" ++ m2 :=
      fun kv hkv => hnl kv (List.mem_cons_of_mem _ hkv)
    simp only [List.map_cons, List.nodup_cons] at hnd
    obtain ⟨hknotin, hnd'⟩ := hnd
    by_cases hk : k ∈ levelNames
    · have hga : getAttr t.attrs (lvlAttr k) = some (.raw (defaultOf k)) :=
        hinv1 k hk (by simp)
      have htr : (StyleV.raw (defaultOf k)).truthy = true := defaultOf_truthy hk
      have hwne : ∀ kv' ∈ rest, lvlAttr k ≠ wAttr kv'.1 := by
        intro kv' hmem
        by_cases hkv' : kv'.1 ∈ levelNames
        · simp only [wAttr, if_pos hkv']
          intro h
          apply hknotin
          rw [lvlAttr_inj h]
          exact List.mem_map_of_mem Prod.fst hmem
        · simp only [wAttr, if_neg hkv']
          intro h
          exact hnl' kv' hmem k (pfxAttr_eq_lvlAttr h.symm)
      have htail1 : ∀ (sv : StyleV), ∀ k' ∈ levelNames, k' ∈ rest.map Prod.fst →
          getAttr (setAttr t.attrs (lvlAttr k) sv) (lvlAttr k')
            = some (.raw (defaultOf k')) := by
        intro sv k' hk' hmem
        have hne : lvlAttr k' ≠ lvlAttr k := by
          intro h
          apply hknotin
          rw [← lvlAttr_inj h]
          exact hmem
        rw [getAttr_setAttr_ne _ _ _ _ hne]
        exact hinv1 k' hk' (by simp only [List.map_cons, List.mem_cons]; exact Or.inr hmem)
      have htail2 : ∀ (sv : StyleV), ∀ kv' ∈ rest, kv'.1 ∉ levelNames →
          getAttr (setAttr t.attrs (lvlAttr k) sv) (lvlAttr kv'.1) = none := by
        intro sv kv' hmem hnotlvl
        have hne : lvlAttr kv'.1 ≠ lvlAttr k := by
          intro h
          apply hnotlvl
          rw [lvlAttr_inj h]
          exact hk
        rw [getAttr_setAttr_ne _ _ _ _ hne]
        exact hinv2 kv' (List.mem_cons_of_mem _ hmem) hnotlvl
      cases hpv : parse v with
      | ok st =>
        obtain ⟨errs2, t2, heq, hrec, hcust, hok, hframe⟩ :=
          ih { t with attrs := setAttr t.attrs (lvlAttr k) (.parsed st) } errs hnl' hnd'
            (htail1 (.parsed st)) (htail2 (.parsed st))
        have hstep : Terminal.initStyles parse t ((k, v) :: rest) errs
            = Terminal.initStyles parse
                { t with attrs := setAttr t.attrs (lvlAttr k) (.parsed st) } rest errs := by
          simp only [Terminal.initStyles, hga, htr, hpv, eq_self_iff_true, if_true]
        refine ⟨errs2, t2, by rw [hstep]; exact heq, ?_, ?_, ?_, ?_⟩
        · intro kv' hmem hlvl
          rcases List.mem_cons.mp hmem with heq' | hmem'
          · subst heq'
            constructor
            · intro st' hst'
              rw [hpv] at hst'
              injection hst' with hst2
              subst hst2
              rw [hframe (lvlAttr k) hwne]
              exact getAttr_setAttr_self t.attrs (lvlAttr k) (.parsed st)
            · intro e he
              rw [hpv] at he
              exact Except.noConfusion he
          · exact hrec kv' hmem' hlvl
        · intro kv' hmem hnotlvl
          rcases List.mem_cons.mp hmem with heq' | hmem'
          · subst heq'; exact absurd hk hnotlvl
          · exact hcust kv' hmem' hnotlvl
        · intro hall
          exact hok fun kv' hmem' => hall kv' (List.mem_cons_of_mem _ hmem')
        · intro a ha
          rw [hframe a fun kv' hmem' => ha kv' (List.mem_cons_of_mem _ hmem')]
          have h2 : a ≠ lvlAttr k := by
            have h3 := ha (k, v) (List.mem_cons_self _ _)
            simpa only [wAttr, if_pos hk] using h3
          exact getAttr_setAttr_ne _ _ _ _ h2
      | error e0 =>
        obtain ⟨st, hds⟩ := hp k hk
        obtain ⟨errs2', t2, heq, hrec, hcust, hok, hframe⟩ :=
          ih { t with attrs := setAttr t.attrs (lvlAttr k) (.parsed st) }
            (errs ++ [mkStyleErr k (.raw (defaultOf k)) e0]) hnl' hnd'
            (htail1 (.parsed st)) (htail2 (.parsed st))
        have hstep : Terminal.initStyles parse t ((k, v) :: rest) errs
            = Terminal.initStyles parse
                { t with attrs := setAttr t.attrs (lvlAttr k) (.parsed st) } rest
                (errs ++ [mkStyleErr k (.raw (defaultOf k)) e0]) := by
          simp only [Terminal.initStyles, hga, htr, hpv, StyleV.descr, hds,
            eq_self_iff_true, if_true]
        refine ⟨mkStyleErr k (.raw (defaultOf k)) e0 :: errs2', t2, ?_, ?_, ?_, ?_, ?_⟩
        · rw [hstep, heq]
          simp
        · intro kv' hmem hlvl
          rcases List.mem_cons.mp hmem with heq' | hmem'
          · subst heq'
            constructor
            · intro st' hst'
              rw [hpv] at hst'
              exact Except.noConfusion hst'
            · intro e he
              rw [hpv] at he
              injection he with he2
              subst he2
              refine ⟨⟨st, hds, ?_⟩, List.mem_cons_self _ _⟩
              rw [hframe (lvlAttr k) hwne]
              exact getAttr_setAttr_self t.attrs (lvlAttr k) (.parsed st)
          · have hres := hrec kv' hmem' hlvl
            exact ⟨hres.1, fun e he =>
              ⟨(hres.2 e he).1, List.mem_cons_of_mem _ (hres.2 e he).2⟩⟩
        · intro kv' hmem hnotlvl
          rcases List.mem_cons.mp hmem with heq' | hmem'
          · subst heq'; exact absurd hk hnotlvl
          · exact hcust kv' hmem' hnotlvl
        · intro hall
          obtain ⟨st', hst'⟩ := hall (k, v) (List.mem_cons_self _ _)
          rw [hpv] at hst'
          exact Except.noConfusion hst'
        · intro a ha
          rw [hframe a fun kv' hmem' => ha kv' (List.mem_cons_of_mem _ hmem')]
          have h2 : a ≠ lvlAttr k := by
            have h3 := ha (k, v) (List.mem_cons_self _ _)
            simpa only [wAttr, if_pos hk] using h3
          exact getAttr_setAttr_ne _ _ _ _ h2
    · have hga : getAttr t.attrs (lvlAttr k) = none :=
        hinv2 (k, v) (List.mem_cons_self _ _) hk
      have hwne : ∀ kv' ∈ rest, pfxAttr k ≠ wAttr kv'.1 := by
        intro kv' hmem
        by_cases hkv' : kv'.1 ∈ levelNames
        · simp only [wAttr, if_pos hkv']
          intro h
          exact hnl (k, v) (List.mem_cons_self _ _) kv'.1 (pfxAttr_eq_lvlAttr h)
        · simp only [wAttr, if_neg hkv']
          intro h
          apply hknotin
          rw [pfxAttr_inj h]
          exact List.mem_map_of_mem Prod.fst hmem
      have htail1 : ∀ k' ∈ levelNames, k' ∈ rest.map Prod.fst →
          getAttr (setAttr t.attrs (pfxAttr k) (.raw v)) (lvlAttr k')
            = some (.raw (defaultOf k')) := by
        intro k' hk' hmem
        have hne : lvlAttr k' ≠ pfxAttr k := by
          intro h
          exact hnl (k, v) (List.mem_cons_self _ _) k' (pfxAttr_eq_lvlAttr h.symm)
        rw [getAttr_setAttr_ne _ _ _ _ hne]
        exact hinv1 k' hk' (by simp only [List.map_cons, List.mem_cons]; exact Or.inr hmem)
      have htail2 : ∀ kv' ∈ rest, kv'.1 ∉ levelNames →
          getAttr (setAttr t.attrs (pfxAttr k) (.raw v)) (lvlAttr kv'.1) = none := by
        intro kv' hmem hnotlvl
        have hne : lvlAttr kv'.1 ≠ pfxAttr k := by
          intro h
          exact hnl (k, v) (List.mem_cons_self _ _) kv'.1 (pfxAttr_eq_lvlAttr h.symm)
        rw [getAttr_setAttr_ne _ _ _ _ hne]
        exact hinv2 kv' (List.mem_cons_of_mem _ hmem) hnotlvl
      obtain ⟨errs2, t2, heq, hrec, hcust, hok, hframe⟩ :=
        ih { t with attrs := setAttr t.attrs (pfxAttr k) (.raw v) } errs hnl' hnd'
          htail1 htail2
      have hstep : Terminal.initStyles parse t ((k, v) :: rest) errs
          = Terminal.initStyles parse
              { t with attrs := setAttr t.attrs (pfxAttr k) (.raw v) } rest errs := by
        simp only [Terminal.initStyles, hga]
      refine ⟨errs2, t2, by rw [hstep]; exact heq, ?_, ?_, ?_, ?_⟩
      · intro kv' hmem hlvl
        rcases List.mem_cons.mp hmem with heq' | hmem'
        · subst heq'; exact absurd hlvl hk
        · exact hrec kv' hmem' hlvl
      · intro kv' hmem hnotlvl
        rcases List.mem_cons.mp hmem with heq' | hmem'
        · subst heq'
          rw [hframe (pfxAttr k) hwne]
          exact getAttr_setAttr_self t.attrs (pfxAttr k) (.raw v)
        · exact hcust kv' hmem' hnotlvl
      · intro hall
        exact hok fun kv' hmem' => hall kv' (List.mem_cons_of_mem _ hmem')
      · intro a ha
        rw [hframe a fun kv' hmem' => ha kv' (List.mem_cons_of_mem _ hmem')]
        have h2 : a ≠ pfxAttr k := by
          have h3 := ha (k, v) (List.mem_cons_self _ _)
          simpa only [wAttr, if_neg hk] using h3
        exact getAttr_setAttr_ne _ _ _ _ h2


/-- C8 (counterexample to the claim as stated): with the overrides mapping
`{"level_error": "x", "error": "y"}` (and a parser rejecting both "x" and
"y"), the key `"level_error"` — which has no default — is not stored as a
harmless custom style: it is written to `_style_level_error`, so the later
recognized key `"error"` finds `"x"` as its default and
`initialize_styles` raises an uncaught parse error instead of returning the
queued error strings. -/
theorem c8_counterexample :
    Terminal.initStyles sampleParse (Terminal.mkT 0)
      [("level_error", "x"), ("error", "y")] [] = .error "unparsable: x" := by
  rfl

/-- C8 (amended): for every overrides mapping with distinct keys, none of
which is of the form `level_<suffix>`, and a parser accepting the shipped
defaults, `initialize_styles` never raises: for each recognized level name
whose descriptor fails to parse the default stays in effect (the attribute
holds the parsed default) and the returned list contains the string
"Invalid style definition for `<name>`, defaulting to `<default>`:
<parse error>"; keys with no existing default are stored verbatim under
`_style_<name>`; and the call returns an empty list when every descriptor
parses. -/
theorem c8_styles_fallback (v : Int) (parse : String → Except String Style)
    (ovr : List (String × String))
    (hkeys : ∀ kv ∈ ovr, ∀ m2 : String, kv.1 ≠ "level_" ++ m2)
    (hnd : (ovr.map Prod.fst).Nodup)
    (hp : ∀ k ∈ levelNames, ∃ st, parse (defaultOf k) = .ok st) :
    ∃ errs t2, Terminal.initStyles parse (Terminal.mkT v) ovr [] = .ok (errs, t2) ∧
      (∀ kv ∈ ovr, kv.1 ∈ levelNames → ∀ e, parse kv.2 = .error e →
        (∃ st, parse (defaultOf kv.1) = .ok st ∧
          getAttr t2.attrs (lvlAttr kv.1) = some (.parsed st)) ∧
        mkStyleErr kv.1 (.raw (defaultOf kv.1)) e ∈ errs) ∧
      (∀ kv ∈ ovr, kv.1 ∉ levelNames →
        getAttr t2.attrs (pfxAttr kv.1) = some (.raw kv.2)) ∧
      ((∀ kv ∈ ovr, ∃ st, parse kv.2 = .ok st) → errs = []) := by
  obtain ⟨errs2, t2, heq, hrec, hcust, hok, _⟩ :=
    initStyles_chain parse hp ovr (Terminal.mkT v) [] hkeys hnd
      (fun k hk _ => getAttr_init_level hk)
      (fun kv _ hnk => getAttr_init_not_level hnk)
  rw [List.nil_append] at heq
  exact ⟨errs2, t2, heq,
    fun kv hm hlvl e he => (hrec kv hm hlvl).2 e he, hcust, hok⟩

theorem c8_styles_fallback_witness :
    ∃ errs t2, Terminal.initStyles sampleParse (Terminal.mkT 0)
        [("error", "zzz"), ("table", "blue")] [] = .ok (errs, t2) ∧
      (∀ kv ∈ ([("error", "zzz"), ("table", "blue")] : List (String × String)),
        kv.1 ∈ levelNames → ∀ e, sampleParse kv.2 = .error e →
        (∃ st, sampleParse (defaultOf kv.1) = .ok st ∧
          getAttr t2.attrs (lvlAttr kv.1) = some (.parsed st)) ∧
        mkStyleErr kv.1 (.raw (defaultOf kv.1)) e ∈ errs) ∧
      (∀ kv ∈ ([("error", "zzz"), ("table", "blue")] : List (String × String)),
        kv.1 ∉ levelNames → getAttr t2.attrs (pfxAttr kv.1) = some (.raw kv.2)) ∧
      ((∀ kv ∈ ([("error", "zzz"), ("table", "blue")] : List (String × String)),
        ∃ st, sampleParse kv.2 = .ok st) → errs = []) :=
  c8_styles_fallback 0 sampleParse [("error", "zzz"), ("table", "blue")]
    (by
      intro kv hkv m2
      simp only [List.mem_cons, List.not_mem_nil, or_false] at hkv
      rcases hkv with rfl | rfl
      · exact short_ne_level "error" m2 (by decide)
      · exact short_ne_level "table" m2 (by decide))
    (by decide)
    (by
      intro k hk
      simp only [levelNames, List.mem_cons, List.not_mem_nil, or_false] at hk
      rcases hk with rfl | rfl | rfl | rfl | rfl | rfl <;> exact ⟨_, rfl⟩)


end HatchTerminal
